import Mathlib

/-!
Verification of the real-time session layer and mock REST handlers of the
Kinetic telehealth dashboard.  Each namespace shallowly embeds one source
module; theorems at the end of the file settle the specification claims.
-/

set_option maxHeartbeats 1000000

/-! ## Socket provider reconnect logic (src/unnamed/part_001, `connectWebSocket`) -/

namespace SocketProviderM

/-- Delay in milliseconds that the `onclose` handler of `connectWebSocket`
passes to `setTimeout` before the next connection attempt
(src/unnamed/part_001, lines 155-158). -/
def reconnectDelayMs : Nat := 3000

/-- Delay scheduled before reconnect attempt `n`.  The handler always passes
the same constant to `setTimeout`, whatever the attempt number. -/
def reconnectDelay (_n : Nat) : Nat := reconnectDelayMs

/-- Client state relevant to reconnection: the wall-clock instant (ms) at
which the pending reconnect timer, if any, will fire
(`reconnectTimeoutRef`). -/
structure WsClientState where
  pendingReconnectAt : Option Nat
deriving DecidableEq

/-- The `onclose` handler (src/unnamed/part_001, lines 146-159): it clears any
pending reconnect timer (`clearTimeout`) and schedules a single new attempt
3000 ms after the close event. -/
def onSocketClose (_st : WsClientState) (now : Nat) : WsClientState :=
  { pendingReconnectAt := some (now + reconnectDelayMs) }

end SocketProviderM

/-! ## WebRTC signaling client (src/components/appointments-manager.tsx,
`initializeWebRTC`, lines 696-792) -/

namespace AppointmentsManager

/-- Minimal JSON value: the client builds its outgoing signaling messages with
object literals whose payload values (SDP blob, ICE candidate) are opaque. -/
inductive Json where
  | str (s : String)
  | obj (fields : List (String × Json))

/-- Top-level keys of a JSON object. -/
def Json.keys : Json → List String
  | .obj fs => fs.map (fun f => f.1)
  | .str _ => []

/-- Whether a JSON object carries a top-level field named `k`. -/
def Json.hasKey : Json → String → Bool
  | .obj fs, k => fs.any (fun f => f.1 == k)
  | .str _, _ => false

/-- The offer message the client sends once the signaling socket opens
(lines 729-732): an object with exactly a `type` field and the SDP payload. -/
def offerMessage (offer : Json) : Json :=
  .obj [("type", .str "offer"), ("offer", offer)]

/-- The answer message sent in response to an incoming offer (lines 741-744). -/
def answerMessage (ans : Json) : Json :=
  .obj [("type", .str "answer"), ("answer", ans)]

/-- The ICE-candidate message emitted from `onicecandidate` (lines 753-760). -/
def iceCandidateMessage (c : Json) : Json :=
  .obj [("type", .str "ice-candidate"), ("candidate", c)]

/-- Incoming signaling-socket message, discriminated exactly as the
`ws.onmessage` handler does (lines 735-750); unknown types fall through the
if-chain and are ignored. -/
inductive WsMsg where
  | offer (sdp : String)
  | answer (sdp : String)
  | iceCandidate (c : String)
  | other (ty : String)
deriving DecidableEq

/-- Payload of an ICE-candidate message, `none` for every other message. -/
def WsMsg.candidatePayload : WsMsg → Option String
  | .iceCandidate c => some c
  | _ => none

/-- Peer-connection state observable in `initializeWebRTC`: whether
`setRemoteDescription` has been called, and the candidates passed to
`addIceCandidate`, in call order.  The source keeps no buffer of pending
candidates, so the state has no such component. -/
structure PeerConnState where
  remoteDescriptionSet : Bool
  appliedCandidates : List String
  answeredOffers : List String
deriving DecidableEq

/-- The `ws.onmessage` handler (lines 735-750): an offer sets the remote
description and sends an answer; an answer sets the remote description; an
ICE candidate is passed to `addIceCandidate` immediately, with no check of
`remoteDescriptionSet` and no buffering. -/
def onSignalingMessage (st : PeerConnState) (m : WsMsg) : PeerConnState :=
  match m with
  | .offer sdp =>
      { st with remoteDescriptionSet := true, answeredOffers := st.answeredOffers ++ [sdp] }
  | .answer _ => { st with remoteDescriptionSet := true }
  | .iceCandidate c => { st with appliedCandidates := st.appliedCandidates ++ [c] }
  | .other _ => st

/-- Process a sequence of incoming signaling messages in arrival order. -/
def processSignalingMessages (st : PeerConnState) : List WsMsg → PeerConnState
  | [] => st
  | m :: ms => processSignalingMessages (onSignalingMessage st m) ms

/-- State when `initializeWebRTC` finishes setting up: no remote description,
no candidate applied yet. -/
def initialPeerConnState : PeerConnState :=
  { remoteDescriptionSet := false, appliedCandidates := [], answeredOffers := [] }

end AppointmentsManager

/-! ## Video-call API route dispatch (src/app/api/video-call/route.ts, `POST`) -/

namespace VideoCallApi

/-- What the `POST` handler does with a request of a given `type`: forward it
to a backend endpoint, or answer 400 without forwarding. -/
inductive RouteAction where
  | forward (backendPath : String)
  | invalidType (status : Nat)
deriving DecidableEq

/-- The message types the handler's if-chain recognizes (lines 18-159). -/
def recognizedTypes : List String :=
  ["start-session", "offer", "answer", "ice-candidate", "end-session"]

/-- The `POST` handler's dispatch on the request `type` (lines 18-162): five
recognized types are forwarded to the backend; anything else is answered with
status 400 and the message Invalid request type. -/
def dispatch (ty : String) : RouteAction :=
  if ty = "start-session" then .forward "/session/start"
  else if ty = "offer" then .forward "/session/webrtc/offer"
  else if ty = "answer" then .forward "/session/webrtc/answer"
  else if ty = "ice-candidate" then .forward "/session/webrtc/ice-candidate"
  else if ty = "end-session" then .forward "/session/end"
  else .invalidType 400

end VideoCallApi

/-! ## Backend session registry (spec-modelled) and the `video_sessions` store
(src/unnamed/part_008 schema, src/hooks/use-auth-api.ts client operations) -/

namespace Backend

/-- Modelled from the spec: the lifecycle states of the backend session state
machine (spec section 4.3).  The FastAPI backend (`backend/main.py`) that owns
session state is launched by the repository's start scripts but is not under
`src/`; only its callers are. -/
inductive SessionState where
  | created
  | offering
  | answering
  | connected
  | reconnecting
  | ended
deriving DecidableEq

/-- Modelled from the spec: a backend session record, reduced to the parts the
end-session claim observes. -/
structure BackendSession where
  state : SessionState
  endedAt : Option Nat
deriving DecidableEq

/-- Modelled from the spec: the backend `/session/end` operation (spec section
4.3: `end-session` → `Ended`, terminal, idempotent — repeated end requests
no-op and still succeed).  Returns the updated session and a success flag. -/
def endSession (s : BackendSession) (now : Nat) : BackendSession × Bool :=
  match s.state with
  | .ended => (s, true)
  | _ => ({ state := .ended, endedAt := some now }, true)

end Backend

namespace VideoSessions

/-- A row of the `video_sessions` table (src/unnamed/part_008, lines 174-183):
one `user_id` column (NOT NULL) and one nullable `target_id` column are the
only participant slots a session has. -/
structure VideoSessionRow where
  id : String
  userId : String
  targetId : Option String
  status : String
  startedAt : Nat
  endedAt : Option Nat
deriving DecidableEq

/-- The participant identifiers of a session row: its user and, when present,
its target. -/
def participantIds (r : VideoSessionRow) : Finset String :=
  insert r.userId (r.targetId.elim ∅ (fun t => {t}))

/-- Store operations the client performs on `video_sessions`
(src/hooks/use-auth-api.ts): `startVideoCall` inserts a row with the caller
and the target (lines 96-104); `endVideoCall` updates the matching row's
status and end time (lines 157-164); the offer/answer/ice-candidate relay
calls never touch the table. -/
inductive StoreOp where
  | startCall (sessionId userId targetId : String) (now : Nat)
  | endCall (sessionId : String) (now : Nat)
  | relayMsg (ty : String)
deriving DecidableEq

/-- Effect of one client operation on the `video_sessions` store. -/
def applyOp (store : List VideoSessionRow) : StoreOp → List VideoSessionRow
  | .startCall sid uid tid now =>
      store ++ [{ id := sid, userId := uid, targetId := some tid,
                  status := "active", startedAt := now, endedAt := none }]
  | .endCall sid now =>
      store.map (fun r =>
        if r.id = sid then { r with status := "ended", endedAt := some now } else r)
  | .relayMsg _ => store

/-- The store reached from empty by a sequence of client operations. -/
def runOps (ops : List StoreOp) : List VideoSessionRow :=
  ops.foldl applyOp []

/-- The Supabase update performed by `endVideoCall` after a successful backend
call (src/hooks/use-auth-api.ts, lines 157-164). -/
def endRowUpdate (r : VideoSessionRow) (now : Nat) : VideoSessionRow :=
  { r with status := "ended", endedAt := some now }

end VideoSessions

/-! ## Progress API (src/app/api/progress/route.ts, `POST`) -/

namespace ProgressApi

/-- One history entry of a progress metric. -/
structure MetricEntry where
  date : String
  level : Int
deriving DecidableEq

/-- One tracked metric: pain, mobility or strength. -/
structure MetricData where
  current : Int
  initial : Int
  history : List MetricEntry
deriving DecidableEq

/-- A patient's progress record.  The `weeklyActivity` and `achievement`
branches of the handler only append to their respective lists; their payload
shapes beyond what those branches touch are elided. -/
structure PatientProgress where
  overall : Int
  pain : MetricData
  mobility : MetricData
  strength : MetricData
  weeklyActivity : List Int
  achievements : List String
deriving DecidableEq

/-- JavaScript `Math.round`: round half toward positive infinity. -/
def jsRound (q : Rat) : Int := ⌊q + 1 / 2⌋

/-- Line 203-205 of the route: `overall` is recomputed as
`Math.round((pain.current + mobility.current + strength.current) / 3)`.
With sum `n`, `Math.round(n / 3) = floor(n / 3 + 1 / 2) = floor((2n + 3) / 6)`,
written here with integer floor division so it evaluates; the fractional part
of `n / 3` is always 0, 1/3 or 2/3, so the source's floating-point division
and exact rational division round identically.  `overallFrom_eq_round` below
proves this equal to `jsRound` of the rational mean. -/
def overallFrom (p m s : Int) : Int := (2 * (p + m + s) + 3) / 6

/-- The fresh record created when the patient has no progress data yet
(lines 181-188). -/
def freshProgress : PatientProgress :=
  { overall := 0
    pain := { current := 0, initial := 0, history := [] }
    mobility := { current := 0, initial := 0, history := [] }
    strength := { current := 0, initial := 0, history := [] }
    weeklyActivity := []
    achievements := [] }

/-- Lines 194-200: set the metric's current value and push a history entry
dated today. -/
def updateMetric (d : MetricData) (today : String) (v : Int) : MetricData :=
  { d with current := v, history := d.history ++ [{ date := today, level := v }] }

/-- The `POST` handler's update of one patient record (lines 192-216): the
three scalar metrics update `current`, push history, and recompute `overall`;
`weeklyActivity` and `achievement` append to their lists; any other metric
name leaves the record unchanged. -/
def applyProgressUpdate (p : PatientProgress) (metric : String) (v : Int)
    (today : String) : PatientProgress :=
  if metric = "pain" then
    let p1 := { p with pain := updateMetric p.pain today v }
    { p1 with overall := overallFrom p1.pain.current p1.mobility.current p1.strength.current }
  else if metric = "mobility" then
    let p1 := { p with mobility := updateMetric p.mobility today v }
    { p1 with overall := overallFrom p1.pain.current p1.mobility.current p1.strength.current }
  else if metric = "strength" then
    let p1 := { p with strength := updateMetric p.strength today v }
    { p1 with overall := overallFrom p1.pain.current p1.mobility.current p1.strength.current }
  else if metric = "weeklyActivity" then
    { p with weeklyActivity := p.weeklyActivity ++ [v] }
  else if metric = "achievement" then
    { p with achievements := p.achievements ++ [Nat.repr (p.achievements.length + 1)] }
  else p

/-- Lookup of a patient's record in the module-level `progressData` store. -/
def lookupProgress (store : List (String × PatientProgress)) (pid : String) :
    Option PatientProgress :=
  (store.find? (fun e => e.1 = pid)).map (fun e => e.2)

/-- The `POST` handler (lines 166-227): reject missing fields with 400
(modelled as `none`); otherwise take the patient's record, creating a fresh
one when absent, apply the update, and return the updated record with 201
alongside the new store. -/
def progressPost (store : List (String × PatientProgress)) (pid metric : String)
    (v : Int) (today : String) :
    Option PatientProgress × List (String × PatientProgress) :=
  if pid = "" ∨ metric = "" then (none, store)
  else
    let base := (lookupProgress store pid).getD freshProgress
    let store1 :=
      if (lookupProgress store pid).isSome then store else store ++ [(pid, base)]
    let updated := applyProgressUpdate base metric v today
    (some updated, store1.map (fun e => if e.1 = pid then (e.1, updated) else e))

/-- The metric field of a record selected by the request's metric name,
defined for the three scalar metrics. -/
def getMetric (p : PatientProgress) (m : String) : MetricData :=
  if m = "pain" then p.pain
  else if m = "mobility" then p.mobility
  else p.strength

/-- The record returned by a concrete pain update on a fresh patient:
current pain 5, one history entry, overall `Math.round(5 / 3) = 2`. -/
def sampleUpdated : PatientProgress :=
  { overall := 2
    pain := { current := 5, initial := 0, history := [{ date := "2026-02-01", level := 5 }] }
    mobility := { current := 0, initial := 0, history := [] }
    strength := { current := 0, initial := 0, history := [] }
    weeklyActivity := []
    achievements := [] }

end ProgressApi

/-! ## Appointments API (src/unnamed/part_005, `POST`, lines 95-148) -/

namespace AppointmentsApi

/-- An appointment as stored in the module-level `appointments` array, reduced
to the fields the `POST` handler reads or writes.  The source field `type` is
called `typ` here because `type` is reserved. -/
structure Appointment where
  id : String
  patientId : String
  doctorId : String
  date : String
  time : String
  typ : String
  status : String
deriving DecidableEq

/-- A creation request body, carrying the five required fields plus the
optional status. -/
structure AppointmentRequest where
  patientId : String
  doctorId : String
  date : String
  time : String
  typ : String
  status : Option String
deriving DecidableEq

/-- Outcome of the `POST` handler. -/
inductive PostResult where
  | badRequest (missingField : String)
  | conflict
  | created (a : Appointment)
deriving DecidableEq

/-- Lines 100-108: the first required field that is falsy (empty), in source
order, or `none` when all are present. -/
def firstMissingField (r : AppointmentRequest) : Option String :=
  if r.patientId = "" then some "patientId"
  else if r.doctorId = "" then some "doctorId"
  else if r.date = "" then some "date"
  else if r.time = "" then some "time"
  else if r.typ = "" then some "type"
  else none

/-- Lines 111-116: the conflict predicate — same doctor, date and time, and a
status other than Cancelled. -/
def conflictsWith (r : AppointmentRequest) (a : Appointment) : Bool :=
  a.doctorId == r.doctorId && a.date == r.date && a.time == r.time
    && !(a.status == "Cancelled")

/-- Line 128: `appointmentData.status || 'Pending'` — a missing or empty
status defaults to Pending. -/
def statusOrPending : Option String → String
  | some s => if s = "" then "Pending" else s
  | none => "Pending"

/-- The `POST` handler (lines 95-148): validate required fields, search the
store for a conflicting appointment (409 when found, store unchanged),
otherwise append the new appointment with id `(length + 1).toString`. -/
def appointmentsPost (appointments : List Appointment) (r : AppointmentRequest) :
    PostResult × List Appointment :=
  match firstMissingField r with
  | some f => (.badRequest f, appointments)
  | none =>
    match appointments.find? (fun a => conflictsWith r a) with
    | some _ => (.conflict, appointments)
    | none =>
      let a : Appointment :=
        { id := Nat.repr (appointments.length + 1)
          patientId := r.patientId
          doctorId := r.doctorId
          date := r.date
          time := r.time
          typ := r.typ
          status := statusOrPending r.status }
      (.created a, appointments ++ [a])

/-- A stored appointment used to instantiate the conflict theorem. -/
def sampleAppointment : Appointment :=
  { id := "1", patientId := "1", doctorId := "2", date := "2026-01-05"
    time := "10:00 AM", typ := "Assessment", status := "Confirmed" }

/-- A creation request colliding with `sampleAppointment`. -/
def sampleRequest : AppointmentRequest :=
  { patientId := "7", doctorId := "2", date := "2026-01-05", time := "10:00 AM"
    typ := "Follow-up", status := none }

end AppointmentsApi

/-! ## Pose-estimation analysis endpoint (src/unnamed/part_004, `POST`) -/

namespace PoseEstimationApi

/-- A stored row of `pose_analyses`, reduced to the columns the throttle check
reads: the session, the submitting user, and the creation time in ms. -/
structure AnalysisRecord where
  sessionId : Option String
  userId : String
  createdAt : Nat
deriving DecidableEq

/-- The persistent state the endpoint consults and updates: the stored
analyses. -/
structure PipelineState where
  analyses : List AnalysisRecord
deriving DecidableEq

/-- State with no stored analysis. -/
def emptyPipeline : PipelineState := ⟨[]⟩

/-- Outcome of the forwarded call to the backend analysis service: HTTP
success, HTTP failure with a status code, or a thrown error (network failure,
timeout). -/
inductive BackendOutcome where
  | ok
  | fail (status : Nat)
  | exn
deriving DecidableEq

/-- One frame submission: the authenticated user, the request body's
sessionId, the wall-clock time (ms) at which the request is processed — the
same clock the handler reads for the throttle check and stores as
`created_at` — and the backend outcome for this request. -/
structure Submission where
  userId : String
  sessionId : Option String
  time : Nat
  backend : BackendOutcome
deriving DecidableEq

/-- The response the handler returns: the success body with fresh analysis
(Accepted), the success body with `Throttled - using previous analysis` and
feedback telling the caller to keep the previous result, or an error response
with an HTTP error status. -/
inductive SubmitResult where
  | accepted
  | throttled
  | errorStatus (code : Nat)
deriving DecidableEq

/-- The most recent `created_at` among a list of stored times — the value of
the query ordered by `created_at` descending with limit 1. -/
def latestCreatedAt : List Nat → Option Nat
  | [] => none
  | t :: ts =>
      match latestCreatedAt ts with
      | none => some t
      | some m => some (max t m)

/-- Lines 35-41: the `created_at` of the most recent stored analysis for this
session and this authenticated user. -/
def lastAnalysisTime (st : PipelineState) (sid : String) (uid : String) :
    Option Nat :=
  latestCreatedAt
    ((st.analyses.filter
        (fun r => r.sessionId == some sid && r.userId == uid)).map
      (fun r => r.createdAt))

/-- Lines 33-59: the request is throttled when the body carries a truthy
sessionId and the most recent stored analysis for this session and user is
less than 500 ms old.  Nat subtraction truncates at zero exactly where the
source's signed `timeDiff` is negative, and both sides of 500 agree. -/
def shouldThrottle (st : PipelineState) (x : Submission) : Bool :=
  match x.sessionId with
  | some s =>
      if s = "" then false
      else
        match lastAnalysisTime st s x.userId with
        | some t0 => decide (x.time - t0 < 500)
        | none => false
  | none => false

/-- The `POST` handler (lines 8-160): throttled requests return the
keep-previous-result body without touching the store; otherwise the frame is
forwarded to the backend — on success the analysis is stored and the success
body returned, on HTTP failure the backend's status is returned, and on a
thrown error status 500 is returned, in both failure cases without storing
anything. -/
def submitFrame (st : PipelineState) (x : Submission) :
    SubmitResult × PipelineState :=
  if shouldThrottle st x then (.throttled, st)
  else
    match x.backend with
    | .ok => (.accepted, ⟨st.analyses ++ [⟨x.sessionId, x.userId, x.time⟩]⟩)
    | .fail c => (.errorStatus c, st)
    | .exn => (.errorStatus 500, st)

/-- Sequential processing of submissions in receipt order, returning the
response of each and the final store. -/
def runPipeline (st : PipelineState) :
    List Submission → List SubmitResult × PipelineState
  | [] => ([], st)
  | x :: xs =>
      let step := submitFrame st x
      let rest := runPipeline step.2 xs
      (step.1 :: rest.1, rest.2)

/-- Store contents after processing a submission sequence from the empty
store. -/
def stateAfter (l : List Submission) : PipelineState :=
  (runPipeline emptyPipeline l).2

/-- Response given to submission `x` when it arrives after the sequence `l`
has been processed from the empty store. -/
def resultAt (l : List Submission) (x : Submission) : SubmitResult :=
  (submitFrame (stateAfter l) x).1

end PoseEstimationApi

/-! ## Theorems -/

/-- Claim C2, counterexample: the reconnect delay is the constant 3000 ms for
every attempt, so the delay before attempt 2 is not strictly greater than the
delay before attempt 1 even though 3000 ms is far below the claimed 30 s cap,
and the first delay is not the claimed jittered 1 s base (it is not within
[800, 1200] ms). -/
theorem reconnect_backoff_counterexample :
    SocketProviderM.reconnectDelay 1 = 3000 ∧
    SocketProviderM.reconnectDelay 2 = 3000 ∧
    ¬ SocketProviderM.reconnectDelay 1 < SocketProviderM.reconnectDelay 2 ∧
    SocketProviderM.reconnectDelay 1 < 30000 ∧
    ¬ SocketProviderM.reconnectDelay 0 ≤ 1200 := by
  decide

/-- Claim C2, amended: on socket closure the client clears any pending timer
and schedules exactly one reconnect attempt 3000 ms after the close; the delay
is the same constant for every attempt — no exponential growth, no cap logic,
no jitter, and no attempt bound. -/
theorem reconnect_delay_constant (st : SocketProviderM.WsClientState)
    (now n : Nat) :
    (SocketProviderM.onSocketClose st now).pendingReconnectAt = some (now + 3000) ∧
    SocketProviderM.reconnectDelay n = SocketProviderM.reconnectDelayMs := by
  exact ⟨rfl, rfl⟩

/-- Claim C3, counterexample: an ICE candidate arriving while the remote
description is not yet set is passed to `addIceCandidate` immediately instead
of being buffered — after the message the applied list already holds it and
the remote description is still unset. -/
theorem ice_buffering_counterexample :
    (AppointmentsManager.onSignalingMessage AppointmentsManager.initialPeerConnState
        (.iceCandidate "cand0")).remoteDescriptionSet = false ∧
    (AppointmentsManager.onSignalingMessage AppointmentsManager.initialPeerConnState
        (.iceCandidate "cand0")).appliedCandidates = ["cand0"] := by
  decide

/-- Claim C3, amended: every ICE candidate received on the signaling socket is
applied to the peer connection immediately on arrival, in arrival order,
exactly once each, whether or not the remote description has been set; no
candidate is ever buffered. -/
theorem ice_candidates_applied_immediately_in_order
    (st : AppointmentsManager.PeerConnState) (msgs : List AppointmentsManager.WsMsg) :
    (AppointmentsManager.processSignalingMessages st msgs).appliedCandidates =
      st.appliedCandidates ++ msgs.filterMap AppointmentsManager.WsMsg.candidatePayload := by
  induction msgs generalizing st with
  | nil => simp [AppointmentsManager.processSignalingMessages]
  | cons m ms ih =>
    cases m <;>
      simp [AppointmentsManager.processSignalingMessages,
        AppointmentsManager.onSignalingMessage,
        AppointmentsManager.WsMsg.candidatePayload, ih]

/-- Claim C4, counterexample: the offer message the client emits carries no
`sessionId` and no `senderId` field (and likewise for answer and
ice-candidate messages), refuting the claim that every emitted signaling
message includes both. -/
theorem signaling_fields_counterexample :
    (AppointmentsManager.offerMessage (.str "sdp0")).hasKey "sessionId" = false ∧
    (AppointmentsManager.offerMessage (.str "sdp0")).hasKey "senderId" = false ∧
    (AppointmentsManager.answerMessage (.str "sdp1")).hasKey "sessionId" = false ∧
    (AppointmentsManager.iceCandidateMessage (.str "cand1")).hasKey "senderId" = false ∧
    (AppointmentsManager.offerMessage (.str "sdp0")).hasKey "type" = true := by
  exact ⟨rfl, rfl, rfl, rfl, rfl⟩

/-- Claim C4, amended: each signaling message the client emits over the WebRTC
socket is a single JSON object whose top-level keys are exactly `type` and one
type-specific payload key (`offer`, `answer` or `candidate`); `sessionId` and
`senderId` are never included — the session is identified by the socket URL
path instead. -/
theorem signaling_message_fields (p : AppointmentsManager.Json) :
    (AppointmentsManager.offerMessage p).keys = ["type", "offer"] ∧
    (AppointmentsManager.answerMessage p).keys = ["type", "answer"] ∧
    (AppointmentsManager.iceCandidateMessage p).keys = ["type", "candidate"] ∧
    (AppointmentsManager.offerMessage p).hasKey "sessionId" = false ∧
    (AppointmentsManager.offerMessage p).hasKey "senderId" = false ∧
    (AppointmentsManager.answerMessage p).hasKey "sessionId" = false ∧
    (AppointmentsManager.answerMessage p).hasKey "senderId" = false ∧
    (AppointmentsManager.iceCandidateMessage p).hasKey "sessionId" = false ∧
    (AppointmentsManager.iceCandidateMessage p).hasKey "senderId" = false := by
  exact ⟨rfl, rfl, rfl, rfl, rfl, rfl, rfl, rfl, rfl⟩

/-- Claim C5, counterexample: a message of type `error` is answered with 400
Invalid request type — it is rejected as unrecognized, contradicting the
claim that the recognized set includes `error`. -/
theorem error_type_rejected_counterexample :
    VideoCallApi.dispatch "error" = .invalidType 400 := by
  decide

/-- Claim C5, amended: the handler recognizes exactly `start-session`,
`offer`, `answer`, `ice-candidate` and `end-session`; a request of any other
type — including `error` — is rejected with 400 and not forwarded, and a
request of a recognized type is always forwarded, never rejected on that
ground. -/
theorem dispatch_recognized_iff (ty : String) :
    (∃ path, VideoCallApi.dispatch ty = .forward path) ↔
      ty ∈ VideoCallApi.recognizedTypes := by
  unfold VideoCallApi.dispatch VideoCallApi.recognizedTypes
  split_ifs with h1 h2 h3 h4 h5 <;> simp_all

/-- Claim C6: ending a session is idempotent.  On the spec-modelled backend
registry a second `end-session` call returns the very same session record and
still succeeds, the state after the first call already being terminal
`Ended`; on the client's `video_sessions` row a repeated end update leaves the
status at `ended`. -/
theorem end_session_idempotent (s : Backend.BackendSession) (n1 n2 : Nat)
    (r : VideoSessions.VideoSessionRow) (t1 t2 : Nat) :
    Backend.endSession (Backend.endSession s n1).1 n2 =
      ((Backend.endSession s n1).1, true) ∧
    (Backend.endSession s n1).1.state = .ended ∧
    (Backend.endSession s n1).2 = true ∧
    (VideoSessions.endRowUpdate (VideoSessions.endRowUpdate r t1) t2).status =
      (VideoSessions.endRowUpdate r t1).status := by
  obtain ⟨st, ea⟩ := s
  cases st <;> simp [Backend.endSession, VideoSessions.endRowUpdate]

/-- The participant set of any `video_sessions` row has at most two elements:
the schema provides exactly one `user_id` slot and one nullable `target_id`
slot. -/
theorem videoSessionRow_participants_le_two (r : VideoSessions.VideoSessionRow) :
    (VideoSessions.participantIds r).card ≤ 2 := by
  unfold VideoSessions.participantIds
  cases r.targetId with
  | none => simp
  | some t =>
    simp only [Option.elim]
    exact le_trans (Finset.card_insert_le _ _) (by simp)

/-- Claim C7: in every store reachable from empty by the client's session
operations — session start, signaling relay, session end — every session's
participant set has at most two members.  The bound is structural: a row of
`video_sessions` has exactly the `user_id` and nullable `target_id`
participant slots, and no operation adds any other. -/
theorem participant_count_at_most_two (ops : List VideoSessions.StoreOp)
    (r : VideoSessions.VideoSessionRow) (_hr : r ∈ VideoSessions.runOps ops) :
    (VideoSessions.participantIds r).card ≤ 2 :=
  videoSessionRow_participants_le_two r

/-- Witness for claim C7: the row created by a concrete session start is in
the reachable store and its participant set has two members at most. -/
theorem participant_count_at_most_two_witness :
    ({ id := "s1", userId := "alice", targetId := some "bob",
       status := "active", startedAt := 0, endedAt := none } :
        VideoSessions.VideoSessionRow) ∈
      VideoSessions.runOps [.startCall "s1" "alice" "bob" 0] ∧
    (VideoSessions.participantIds
        { id := "s1", userId := "alice", targetId := some "bob",
          status := "active", startedAt := 0, endedAt := none }).card ≤ 2 :=
  ⟨by decide, participant_count_at_most_two [.startCall "s1" "alice" "bob" 0] _ (by decide)⟩

/-- The handler's integer computation of `overall` agrees with
`Math.round` of the exact rational mean of the three current values. -/
theorem overallFrom_eq_round (p m s : Int) :
    ProgressApi.overallFrom p m s =
      ProgressApi.jsRound (((p + m + s : Int) : Rat) / 3) := by
  unfold ProgressApi.overallFrom ProgressApi.jsRound
  have h : ((p + m + s : Int) : Rat) / 3 + 1 / 2 =
      ((2 * (p + m + s) + 3 : Int) : Rat) / ((6 : Nat) : Rat) := by
    push_cast
    ring
  rw [h, Rat.floor_intCast_div_natCast]
  norm_num

/-- Claim C9: a `POST` to the progress endpoint for one of the three scalar
metrics sets that metric's current value to the submitted value, appends
exactly one history entry with that level, and recomputes `overall` as the
rounded mean of the three current values of the returned record. -/
theorem progress_metric_post_correct
    (store : List (String × ProgressApi.PatientProgress)) (pid metric : String)
    (v : Int) (today : String) (r : ProgressApi.PatientProgress)
    (hpid : pid ≠ "")
    (hm : metric = "pain" ∨ metric = "mobility" ∨ metric = "strength")
    (hr : (ProgressApi.progressPost store pid metric v today).1 = some r) :
    (ProgressApi.getMetric r metric).current = v ∧
    (ProgressApi.getMetric r metric).history =
      (ProgressApi.getMetric ((ProgressApi.lookupProgress store pid).getD
          ProgressApi.freshProgress) metric).history ++ [{ date := today, level := v }] ∧
    r.overall = ProgressApi.jsRound
      (((r.pain.current + r.mobility.current + r.strength.current : Int) : Rat) / 3) := by
  rcases hm with h | h | h <;> subst h <;>
    simp only [ProgressApi.progressPost, hpid, String.reduceEq, or_self, if_false,
      false_or, or_false, ite_false, Option.some.injEq] at hr <;>
    subst hr <;>
    simp [ProgressApi.applyProgressUpdate, ProgressApi.getMetric,
      ProgressApi.updateMetric, overallFrom_eq_round]

/-- Witness for claim C9: a concrete pain update on a fresh patient returns
the expected record, with current pain 5, the single new history entry and
overall 2. -/
theorem progress_metric_post_correct_witness :
    (ProgressApi.progressPost [] "1" "pain" 5 "2026-02-01").1 =
        some ProgressApi.sampleUpdated ∧
    ((ProgressApi.getMetric ProgressApi.sampleUpdated "pain").current = 5 ∧
      (ProgressApi.getMetric ProgressApi.sampleUpdated "pain").history =
        (ProgressApi.getMetric ((ProgressApi.lookupProgress [] "1").getD
            ProgressApi.freshProgress) "pain").history ++
          [{ date := "2026-02-01", level := 5 }] ∧
      ProgressApi.sampleUpdated.overall = ProgressApi.jsRound
        (((ProgressApi.sampleUpdated.pain.current +
            ProgressApi.sampleUpdated.mobility.current +
            ProgressApi.sampleUpdated.strength.current : Int) : Rat) / 3)) :=
  ⟨by decide,
    progress_metric_post_correct [] "1" "pain" 5 "2026-02-01"
      ProgressApi.sampleUpdated (by decide) (Or.inl rfl) (by decide)⟩

/-- The handler's conflict predicate holds exactly when the stored appointment
shares the request's doctor, date and time and is not cancelled. -/
theorem conflictsWith_iff (r : AppointmentsApi.AppointmentRequest)
    (a : AppointmentsApi.Appointment) :
    AppointmentsApi.conflictsWith r a = true ↔
      (a.doctorId = r.doctorId ∧ a.date = r.date ∧ a.time = r.time ∧
        a.status ≠ "Cancelled") := by
  simp [AppointmentsApi.conflictsWith, and_assoc]

/-- Claim C10: with all required fields present, appointment creation returns
the 409 conflict outcome exactly when the store already holds an appointment
with the same doctor, date and time whose status is not Cancelled, and in the
conflict case the store is left unchanged. -/
theorem appointment_conflict_iff (l : List AppointmentsApi.Appointment)
    (r : AppointmentsApi.AppointmentRequest)
    (h1 : r.patientId ≠ "") (h2 : r.doctorId ≠ "") (h3 : r.date ≠ "")
    (h4 : r.time ≠ "") (h5 : r.typ ≠ "") :
    ((AppointmentsApi.appointmentsPost l r).1 = .conflict ↔
      ∃ a ∈ l, a.doctorId = r.doctorId ∧ a.date = r.date ∧ a.time = r.time ∧
        a.status ≠ "Cancelled") ∧
    ((AppointmentsApi.appointmentsPost l r).1 = .conflict →
      (AppointmentsApi.appointmentsPost l r).2 = l) := by
  have hmf : AppointmentsApi.firstMissingField r = none := by
    simp [AppointmentsApi.firstMissingField, h1, h2, h3, h4, h5]
  cases hfind : l.find? (fun a => AppointmentsApi.conflictsWith r a) with
  | none =>
    have hnc : ¬ ∃ a ∈ l, a.doctorId = r.doctorId ∧ a.date = r.date ∧
        a.time = r.time ∧ a.status ≠ "Cancelled" := by
      rintro ⟨a, ha, hprop⟩
      have hnone := List.find?_eq_none.mp hfind a ha
      rw [conflictsWith_iff] at hnone
      exact hnone hprop
    have hc : (AppointmentsApi.appointmentsPost l r).1 ≠ .conflict := by
      simp [AppointmentsApi.appointmentsPost, hmf, hfind]
    exact ⟨⟨fun h => absurd h hc, fun h => absurd h hnc⟩, fun h => absurd h hc⟩
  | some a =>
    have hr1 : (AppointmentsApi.appointmentsPost l r).1 = .conflict := by
      simp [AppointmentsApi.appointmentsPost, hmf, hfind]
    have hr2 : (AppointmentsApi.appointmentsPost l r).2 = l := by
      simp [AppointmentsApi.appointmentsPost, hmf, hfind]
    have hmem := List.mem_of_find?_eq_some hfind
    have hca := (conflictsWith_iff r a).mp (List.find?_some hfind)
    exact ⟨⟨fun _ => ⟨a, hmem, hca⟩, fun _ => hr1⟩, fun _ => hr2⟩

/-- Witness for claim C10: a concrete request colliding with the one stored
appointment is answered with the conflict outcome and the store stays as it
was. -/
theorem appointment_conflict_iff_witness :
    AppointmentsApi.sampleRequest.patientId ≠ "" ∧
    (((AppointmentsApi.appointmentsPost [AppointmentsApi.sampleAppointment]
          AppointmentsApi.sampleRequest).1 = .conflict ↔
        ∃ a ∈ [AppointmentsApi.sampleAppointment],
          a.doctorId = AppointmentsApi.sampleRequest.doctorId ∧
          a.date = AppointmentsApi.sampleRequest.date ∧
          a.time = AppointmentsApi.sampleRequest.time ∧
          a.status ≠ "Cancelled") ∧
      ((AppointmentsApi.appointmentsPost [AppointmentsApi.sampleAppointment]
          AppointmentsApi.sampleRequest).1 = .conflict →
        (AppointmentsApi.appointmentsPost [AppointmentsApi.sampleAppointment]
          AppointmentsApi.sampleRequest).2 = [AppointmentsApi.sampleAppointment])) :=
  ⟨by decide,
    appointment_conflict_iff [AppointmentsApi.sampleAppointment]
      AppointmentsApi.sampleRequest (by decide) (by decide) (by decide)
      (by decide) (by decide)⟩

/-- A stored analysis survives any later submission: `submitFrame` only ever
appends to the store. -/
theorem submitFrame_sub (st : PoseEstimationApi.PipelineState)
    (x : PoseEstimationApi.Submission) (r : PoseEstimationApi.AnalysisRecord)
    (hr : r ∈ st.analyses) :
    r ∈ (PoseEstimationApi.submitFrame st x).2.analyses := by
  unfold PoseEstimationApi.submitFrame
  cases h : PoseEstimationApi.shouldThrottle st x <;>
    cases hb : x.backend <;> simp [h, hb, hr]

/-- Every record in the store after one submission was already stored or is
the record of that submission. -/
theorem submitFrame_src (st : PoseEstimationApi.PipelineState)
    (x : PoseEstimationApi.Submission) (r : PoseEstimationApi.AnalysisRecord)
    (hr : r ∈ (PoseEstimationApi.submitFrame st x).2.analyses) :
    r ∈ st.analyses ∨ r = ⟨x.sessionId, x.userId, x.time⟩ := by
  revert hr
  unfold PoseEstimationApi.submitFrame
  cases h : PoseEstimationApi.shouldThrottle st x <;>
    cases hb : x.backend <;> simp [h, hb] <;> tauto

/-- An accepted submission stores exactly its own analysis record. -/
theorem submitFrame_accepted_state (st : PoseEstimationApi.PipelineState)
    (x : PoseEstimationApi.Submission)
    (h : (PoseEstimationApi.submitFrame st x).1 = .accepted) :
    (PoseEstimationApi.submitFrame st x).2.analyses =
      st.analyses ++ [⟨x.sessionId, x.userId, x.time⟩] := by
  revert h
  unfold PoseEstimationApi.submitFrame
  cases hth : PoseEstimationApi.shouldThrottle st x <;>
    cases hb : x.backend <;> simp [hth, hb]

/-- The final store of a run is reached by running the second half from the
first half's final store. -/
theorem runPipeline_state_append (st : PoseEstimationApi.PipelineState)
    (l1 l2 : List PoseEstimationApi.Submission) :
    (PoseEstimationApi.runPipeline st (l1 ++ l2)).2 =
      (PoseEstimationApi.runPipeline (PoseEstimationApi.runPipeline st l1).2 l2).2 := by
  induction l1 generalizing st with
  | nil => rfl
  | cons x xs ih =>
    show (PoseEstimationApi.runPipeline
        (PoseEstimationApi.submitFrame st x).2 (xs ++ l2)).2 = _
    exact ih _

/-- Stored analyses survive any later run of submissions. -/
theorem runPipeline_mem_mono (st : PoseEstimationApi.PipelineState)
    (l : List PoseEstimationApi.Submission) (r : PoseEstimationApi.AnalysisRecord)
    (hr : r ∈ st.analyses) :
    r ∈ (PoseEstimationApi.runPipeline st l).2.analyses := by
  induction l generalizing st with
  | nil => exact hr
  | cons x xs ih => exact ih _ (submitFrame_sub st x r hr)

/-- Every record in the store after a run was already stored or is the record
of one of the run's submissions. -/
theorem runPipeline_mem_src (st : PoseEstimationApi.PipelineState)
    (l : List PoseEstimationApi.Submission) (r : PoseEstimationApi.AnalysisRecord)
    (hr : r ∈ (PoseEstimationApi.runPipeline st l).2.analyses) :
    r ∈ st.analyses ∨ ∃ x ∈ l, r = ⟨x.sessionId, x.userId, x.time⟩ := by
  induction l generalizing st with
  | nil => exact Or.inl hr
  | cons x xs ih =>
    rcases ih _ hr with h1 | ⟨y, hy, he⟩
    · rcases submitFrame_src st x r h1 with h2 | h2
      · exact Or.inl h2
      · exact Or.inr ⟨x, List.mem_cons_self x xs, h2⟩
    · exact Or.inr ⟨y, List.mem_cons_of_mem x hy, he⟩

/-- The most recent stored time is one of the stored times. -/
theorem latestCreatedAt_mem {l : List Nat} {m : Nat}
    (h : PoseEstimationApi.latestCreatedAt l = some m) : m ∈ l := by
  induction l generalizing m with
  | nil => exact absurd h (by simp [PoseEstimationApi.latestCreatedAt])
  | cons t ts ih =>
    unfold PoseEstimationApi.latestCreatedAt at h
    cases hts : PoseEstimationApi.latestCreatedAt ts with
    | none =>
      rw [hts] at h
      simp only [Option.some.injEq] at h
      simp [← h]
    | some m' =>
      rw [hts] at h
      simp only [Option.some.injEq] at h
      rcases max_choice t m' with hmax | hmax
      · rw [hmax] at h
        simp [← h]
      · rw [hmax] at h
        exact h ▸ List.mem_cons_of_mem t (ih hts)

/-- Every stored time is bounded by the most recent stored time. -/
theorem le_latestCreatedAt {l : List Nat} {t : Nat} (h : t ∈ l) :
    ∃ m, PoseEstimationApi.latestCreatedAt l = some m ∧ t ≤ m := by
  induction l with
  | nil => exact absurd h (List.not_mem_nil t)
  | cons u us ih =>
    rcases List.mem_cons.mp h with h1 | h2
    · subst h1
      cases hus : PoseEstimationApi.latestCreatedAt us with
      | none =>
        exact ⟨t, by simp [PoseEstimationApi.latestCreatedAt, hus], le_refl t⟩
      | some m' =>
        exact ⟨max t m', by simp [PoseEstimationApi.latestCreatedAt, hus],
          le_max_left t m'⟩
    · obtain ⟨m', hm', hle⟩ := ih h2
      exact ⟨max u m', by simp [PoseEstimationApi.latestCreatedAt, hm'],
        le_trans hle (le_max_right u m')⟩

/-- The throttle check reduces to the 500 ms comparison against the most
recent stored analysis for the request's session and user. -/
theorem shouldThrottle_eq_of (st : PoseEstimationApi.PipelineState)
    (x : PoseEstimationApi.Submission) (s : String) (m : Nat)
    (hx : x.sessionId = some s) (hs : s ≠ "")
    (hm : PoseEstimationApi.lastAnalysisTime st s x.userId = some m) :
    PoseEstimationApi.shouldThrottle st x = decide (x.time - m < 500) := by
  unfold PoseEstimationApi.shouldThrottle
  rw [hx]
  simp [hs, hm]

/-- Claim C1, amended: the endpoint throttles per session AND per
authenticated user.  For two submissions carrying the same non-empty
sessionId and coming from the same user, processed in receipt order with the
later one no earlier than everything before it: if their times are less than
500 ms apart and the earlier one was Accepted, the later one receives the
Throttled keep-previous-result response — so at most one of the two is
Accepted. -/
theorem pose_throttle_same_user_window
    (pre mid : List PoseEstimationApi.Submission)
    (a b : PoseEstimationApi.Submission) (s u : String)
    (hs : s ≠ "")
    (has : a.sessionId = some s) (hbs : b.sessionId = some s)
    (hau : a.userId = u) (hbu : b.userId = u)
    (htimes : ∀ x ∈ pre ++ a :: mid, x.time ≤ b.time)
    (hwin : b.time - a.time < 500)
    (hacc : PoseEstimationApi.resultAt pre a = .accepted) :
    PoseEstimationApi.resultAt (pre ++ a :: mid) b = .throttled := by
  have hsta := submitFrame_accepted_state (PoseEstimationApi.stateAfter pre) a hacc
  have hstate : PoseEstimationApi.stateAfter (pre ++ a :: mid) =
      (PoseEstimationApi.runPipeline
        (PoseEstimationApi.submitFrame (PoseEstimationApi.stateAfter pre) a).2 mid).2 := by
    show (PoseEstimationApi.runPipeline PoseEstimationApi.emptyPipeline
        (pre ++ a :: mid)).2 = _
    rw [runPipeline_state_append]
    rfl
  have hra : (⟨a.sessionId, a.userId, a.time⟩ : PoseEstimationApi.AnalysisRecord) ∈
      (PoseEstimationApi.stateAfter (pre ++ a :: mid)).analyses := by
    rw [hstate]
    apply runPipeline_mem_mono
    rw [hsta]
    simp
  have hbound : ∀ rr ∈ (PoseEstimationApi.stateAfter (pre ++ a :: mid)).analyses,
      rr.createdAt ≤ b.time := by
    intro rr hrr
    have hrr' : rr ∈ (PoseEstimationApi.runPipeline PoseEstimationApi.emptyPipeline
        (pre ++ a :: mid)).2.analyses := hrr
    rcases runPipeline_mem_src _ _ rr hrr' with h0 | ⟨x, hx, hxe⟩
    · simp [PoseEstimationApi.emptyPipeline] at h0
    · rw [hxe]
      exact htimes x hx
  have hmemL : (⟨a.sessionId, a.userId, a.time⟩ : PoseEstimationApi.AnalysisRecord) ∈
      (PoseEstimationApi.stateAfter (pre ++ a :: mid)).analyses.filter
        (fun rr => rr.sessionId == some s && rr.userId == b.userId) := by
    apply List.mem_filter.mpr
    exact ⟨hra, by simp [has, hau, hbu]⟩
  have hticks : a.time ∈
      ((PoseEstimationApi.stateAfter (pre ++ a :: mid)).analyses.filter
        (fun rr => rr.sessionId == some s && rr.userId == b.userId)).map
          (fun rr => rr.createdAt) :=
    List.mem_map.mpr ⟨_, hmemL, rfl⟩
  obtain ⟨m, hm, ham⟩ := le_latestCreatedAt hticks
  obtain ⟨r', hr', hre⟩ := List.mem_map.mp (latestCreatedAt_mem hm)
  have hmb : m ≤ b.time := by
    rw [← hre]
    exact hbound r' (List.mem_filter.mp hr').1
  have hdiff : b.time - m < 500 :=
    lt_of_le_of_lt (Nat.sub_le_sub_left ham b.time) hwin
  have hlast : PoseEstimationApi.lastAnalysisTime
      (PoseEstimationApi.stateAfter (pre ++ a :: mid)) s b.userId = some m := hm
  have hth : PoseEstimationApi.shouldThrottle
      (PoseEstimationApi.stateAfter (pre ++ a :: mid)) b = true := by
    rw [shouldThrottle_eq_of _ b s m hbs hs hlast]
    exact decide_eq_true hdiff
  show (PoseEstimationApi.submitFrame
      (PoseEstimationApi.stateAfter (pre ++ a :: mid)) b).1 = .throttled
  simp [PoseEstimationApi.submitFrame, hth]

/-- Witness for the amended claim C1: a concrete second submission by the
same user for the same session 100 ms after an accepted one is throttled. -/
theorem pose_throttle_same_user_window_witness :
    PoseEstimationApi.resultAt [] ⟨"u1", some "sess3", 0, .ok⟩ = .accepted ∧
    (100 : Nat) - 0 < 500 ∧
    PoseEstimationApi.resultAt [⟨"u1", some "sess3", 0, .ok⟩]
        ⟨"u1", some "sess3", 100, .ok⟩ = .throttled :=
  ⟨by decide, by decide,
    pose_throttle_same_user_window [] [] ⟨"u1", some "sess3", 0, .ok⟩
      ⟨"u1", some "sess3", 100, .ok⟩ "sess3" "u1" (by decide) rfl rfl rfl rfl
      (by decide) (by decide) (by decide)⟩

/-- Claim C1, counterexample: the throttle window is keyed on the session AND
the authenticated user, so two submissions by different users for the same
session only 100 ms apart are both Accepted — refuting the claim that at most
one submission per session is accepted within any 500 ms window. -/
theorem pose_throttle_cross_user_counterexample :
    (PoseEstimationApi.runPipeline PoseEstimationApi.emptyPipeline
        [⟨"u1", some "sess1", 0, .ok⟩, ⟨"u2", some "sess1", 100, .ok⟩]).1 =
      [.accepted, .accepted] := by
  decide

/-- Claim C8, counterexample: when the backend analysis call fails (here with
HTTP 502) the endpoint returns an error-status response, not the degraded
Throttled keep-previous-result response the claim describes. -/
theorem analysis_failure_counterexample :
    (PoseEstimationApi.submitFrame PoseEstimationApi.emptyPipeline
        ⟨"u1", some "sess1", 0, .fail 502⟩).1 = .errorStatus 502 ∧
    PoseEstimationApi.SubmitResult.errorStatus 502 ≠ .throttled := by
  decide

/-- Claim C8, amended: an unthrottled submission whose backend call fails is
answered with the backend's error status, and one whose backend call throws
(network failure, timeout) is answered with status 500 — in both cases a hard
error response, with the stored analyses unchanged. -/
theorem analysis_failure_error_status (st : PoseEstimationApi.PipelineState)
    (x : PoseEstimationApi.Submission)
    (hnt : PoseEstimationApi.shouldThrottle st x = false) :
    (∀ c, x.backend = .fail c →
      PoseEstimationApi.submitFrame st x = (.errorStatus c, st)) ∧
    (x.backend = .exn →
      PoseEstimationApi.submitFrame st x = (.errorStatus 500, st)) := by
  constructor
  · intro c hc
    simp [PoseEstimationApi.submitFrame, hnt, hc]
  · intro hc
    simp [PoseEstimationApi.submitFrame, hnt, hc]

/-- Witness for the amended claim C8: a concrete failing backend call yields
the error-status response with the store untouched. -/
theorem analysis_failure_error_status_witness :
    PoseEstimationApi.shouldThrottle PoseEstimationApi.emptyPipeline
        ⟨"u1", some "sess2", 0, .fail 503⟩ = false ∧
    PoseEstimationApi.submitFrame PoseEstimationApi.emptyPipeline
        ⟨"u1", some "sess2", 0, .fail 503⟩ =
      (.errorStatus 503, PoseEstimationApi.emptyPipeline) :=
  ⟨by decide,
    (analysis_failure_error_status PoseEstimationApi.emptyPipeline
      ⟨"u1", some "sess2", 0, .fail 503⟩ (by decide)).1 503 rfl⟩
